import Mathlib

/-!
Verification of the Financial_API ingestion and scheduling engine.

The definitions below are a shallow embedding of `src/services/PriceService.ts`
and `src/services/SchedulerService.ts`.  Network calls are abstracted behind an
explicit provider function (the spec treats the wire format as an opaque data
source behind a fetch interface); `prisma/schema.prisma` is not part of the
source snapshot, so the database primitives are modelled from the spec and
carry a `Modelled from the spec:` note.  JavaScript numeric slots can hold a
number, `null`, or `undefined` (out-of-range array index), which the `JSVal`
type captures; prices are carried as scaled integers since no claim depends on
floating-point arithmetic.  Pacing (`setTimeout`) is modelled by an explicit
millisecond clock in `RunState`, and every outbound fetch is logged with its
start time so that rate-limit pacing claims are statable.
-/

/-- A JavaScript numeric slot: a number, JS `null`, or JS `undefined`. -/
inductive JSVal where
  | num (x : Int)
  | null
  | undef
deriving Repr, DecidableEq

/-- A row of the `Asset` table (spec section 6: `Asset(id, symbol, name, type)`). -/
structure Asset where
  id : Nat
  symbol : String
  name : String
  type : String
deriving Repr, DecidableEq

/-- A row of the `Price` table (spec section 6:
`Price(id, date, open, high, low, close, volume, assetId)`). -/
structure PriceRow where
  assetId : Nat
  date : Nat
  «open» : JSVal
  high : JSVal
  low : JSVal
  close : JSVal
  volume : JSVal
deriving Repr, DecidableEq

/-- The PostgreSQL database state reached through the Prisma client. -/
structure DB where
  assets : List Asset
  prices : List PriceRow
  nextId : Nat
deriving Repr, DecidableEq

/-- Does the store already hold a price row for the pair (assetId, date)? -/
def hasKey (db : DB) (a d : Nat) : Bool :=
  db.prices.any (fun p => p.assetId == a && p.date == d)

/-- Modelled from the spec: `prisma/schema.prisma` is not in the source
snapshot.  Section 6 gives `Asset(id, symbol UNIQUE, name, type)`;
`prisma.asset.upsert` with `where: { symbol }` and an empty `update` returns
the existing row when one matches the symbol and otherwise creates the row
(section 4.2: atomic get-or-create). -/
def assetUpsert (db : DB) (symbol name ty : String) : DB × Asset :=
  match db.assets.find? (fun a => a.symbol == symbol) with
  | some a => (db, a)
  | none =>
    let a : Asset := ⟨db.nextId, symbol, name, ty⟩
    ({ db with assets := db.assets ++ [a], nextId := db.nextId + 1 }, a)

/-- Modelled from the spec: `Price` carries `UNIQUE(assetId, date)`
(section 6), so `prisma.price.create` fails with a constraint error when a row
with the same (assetId, date) already exists; the `date` column, absent from
the daily insert, defaults to the call time (section 8: "dated the call
time"; section 3: a repeated ingestion for the same date must hit the same
key). -/
def priceCreate (db : DB) (assetId date : Nat) (o h l c v : JSVal) :
    Except String DB :=
  if hasKey db assetId date then
    .error "Unique constraint failed on the fields: (assetId, date)"
  else
    .ok { db with prices := db.prices ++ [⟨assetId, date, o, h, l, c, v⟩] }

/-- Modelled from the spec: `prisma.price.createMany` with
`skipDuplicates: true` inserts the rows in order, silently skipping any row
whose (assetId, date) pair already exists (section 4.3). -/
def priceCreateMany (db : DB) (records : List PriceRow) : DB :=
  records.foldl
    (fun d r =>
      if hasKey d r.assetId r.date then d
      else { d with prices := d.prices ++ [r] })
    db

/-- `PriceService.ensureAssetExists`: upsert keyed on the symbol, creating
with `name = symbol` and `type = 'STOCK'` when absent.  The catch block
rethrows, so errors pass through unchanged. -/
def ensureAssetExists (db : DB) (symbol : String) : DB × Asset :=
  assetUpsert db symbol symbol "STOCK"

/-- The quote-snapshot object built by `PriceService.getDailyPrices`. -/
structure PriceData where
  symbol : String
  regularMarketPrice : Int
  regularMarketDayHigh : Int
  regularMarketDayLow : Int
  regularMarketVolume : Int
  previousClose : Int
  regularMarketTime : Nat
  currency : String
deriving Repr, DecidableEq

/-- The `meta` block of a Yahoo Finance chart response. -/
structure YahooMeta where
  currency : String
  symbol : String
  regularMarketPrice : Int
  regularMarketDayHigh : Int
  regularMarketDayLow : Int
  regularMarketVolume : Int
  previousClose : Int
  regularMarketTime : Nat
deriving Repr, DecidableEq

/-- JavaScript `String.prototype.toUpperCase()` on the ASCII ticker strings
this service handles: uppercase each character. -/
def toUpperCase (s : String) : String := ⟨s.data.map Char.toUpper⟩

/-- The `priceData` object literal of `getDailyPrices`: the symbol is
uppercased, the time is converted with `new Date(x * 1000)`. -/
def mkPriceData (symbol : String) (meta : YahooMeta) : PriceData :=
  { symbol := toUpperCase symbol
    regularMarketPrice := meta.regularMarketPrice
    regularMarketDayHigh := meta.regularMarketDayHigh
    regularMarketDayLow := meta.regularMarketDayLow
    regularMarketVolume := meta.regularMarketVolume
    previousClose := meta.previousClose
    regularMarketTime := meta.regularMarketTime * 1000
    currency := meta.currency }

/-- `PriceService.saveDailyPriceToDatabase`: ensure the asset, then a single
`price.create` with `open = close = regularMarketPrice`,
`high = regularMarketDayHigh`, `low = regularMarketDayLow`; any error is
logged and swallowed (the catch block does not rethrow), leaving the store as
it was after the steps that did succeed. -/
def saveDailyPriceToDatabase (db : DB) (now : Nat) (priceData : PriceData) : DB :=
  let db1 := (ensureAssetExists db priceData.symbol).1
  let asset := (ensureAssetExists db priceData.symbol).2
  match priceCreate db1 asset.id now
      (.num priceData.regularMarketPrice)
      (.num priceData.regularMarketDayHigh)
      (.num priceData.regularMarketDayLow)
      (.num priceData.regularMarketPrice)
      (.num priceData.regularMarketVolume) with
  | .ok db2 => db2
  | .error _ => db1

/-- The single element of `indicators.quote` in a chart response: parallel
arrays of OHLCV values. -/
structure YahooQuote where
  «open» : List JSVal
  high : List JSVal
  low : List JSVal
  close : List JSVal
  volume : List JSVal
deriving Repr, DecidableEq

/-- A chart result: the timestamp array plus `indicators.quote[0]`. -/
structure YahooChartResult where
  timestamp : List Nat
  quote : YahooQuote
deriving Repr, DecidableEq

/-- One normalized historical point as built by `getHistoricalPrices`
(`date = new Date(timestamp * 1000)`). -/
structure HistoricalPoint where
  date : Nat
  «open» : JSVal
  high : JSVal
  low : JSVal
  close : JSVal
  volume : JSVal
deriving Repr, DecidableEq

/-- The `timestamps.map((timestamp, index) => ...)` zip of
`getHistoricalPrices`: one point per timestamp, reading each quote array at
the same position; a position past the end of an array reads as JS
`undefined`. -/
def zipQuotes : List Nat → List JSVal → List JSVal → List JSVal → List JSVal →
    List JSVal → List HistoricalPoint
  | [], _, _, _, _, _ => []
  | t :: ts, os, hs, ls, cs, vs =>
    ⟨t * 1000, os.headD .undef, hs.headD .undef, ls.headD .undef,
      cs.headD .undef, vs.headD .undef⟩ ::
      zipQuotes ts os.tail hs.tail ls.tail cs.tail vs.tail

/-- The normalization pipeline of `getHistoricalPrices`: positional zip, then
`.filter(item => item.open !== null)`. -/
def normalizeHistorical (result : YahooChartResult) : List HistoricalPoint :=
  (zipQuotes result.timestamp result.quote.«open» result.quote.high
      result.quote.low result.quote.close result.quote.volume).filter
    (fun item => item.«open» != JSVal.null)

/-- `PriceService.saveHistoricalPricesToDatabase`: ensure the asset first,
return early when the data is empty, otherwise bulk-insert with
`skipDuplicates`; the catch block swallows errors. -/
def saveHistoricalPricesToDatabase (db : DB) (symbol : String)
    (historicalData : List HistoricalPoint) : DB :=
  let db1 := (ensureAssetExists db symbol).1
  let asset := (ensureAssetExists db symbol).2
  if historicalData.length == 0 then db1
  else
    priceCreateMany db1 (historicalData.map fun d =>
      ⟨asset.id, d.date, d.«open», d.high, d.low, d.close, d.volume⟩)

/-- A (range, interval) pair of the Yahoo query configuration. -/
structure DateRangeConfig where
  range : String
  interval : String
deriving Repr, DecidableEq

/-- The `dateRangeConfigs` lookup table of `PriceService`. -/
def dateRangeConfigs : List (String × DateRangeConfig) :=
  [("1d", ⟨"1d", "15m"⟩), ("5d", ⟨"5d", "1d"⟩), ("1mo", ⟨"1mo", "1d"⟩),
   ("3mo", ⟨"3mo", "1d"⟩), ("6mo", ⟨"6mo", "1d"⟩), ("1y", ⟨"1y", "1d"⟩),
   ("2y", ⟨"2y", "1d"⟩), ("5y", ⟨"5y", "1wk"⟩), ("10y", ⟨"10y", "1mo"⟩),
   ("max", ⟨"max", "1mo"⟩)]

/-- `PriceService.getDateRangeConfig`: unknown keys fall back to `'1mo'`. -/
def getDateRangeConfig (rangeKey : String) : DateRangeConfig :=
  (dateRangeConfigs.lookup rangeKey).getD ⟨"1mo", "1d"⟩

/-- The state threaded through a run: the database, a millisecond clock
advanced only by `setTimeout` pauses, and a log of outbound fetches with the
clock value at which each was issued. -/
structure RunState where
  db : DB
  clock : Nat
  fetchLog : List (String × Nat)
deriving Repr, DecidableEq

/-- Record an outbound fetch for a symbol at the current clock. -/
def recordFetch (s : RunState) (symbol : String) : RunState :=
  { s with fetchLog := s.fetchLog ++ [(symbol, s.clock)] }

/-- `await new Promise(resolve => setTimeout(resolve, ms))`. -/
def sleep (s : RunState) (ms : Nat) : RunState :=
  { s with clock := s.clock + ms }

/-- `PriceService.getDailyPrices`: fetch the chart for the symbol; when the
result set is empty the inner throw is caught and rethrown as the generic
failure message; otherwise build `priceData` (uppercased symbol), save it via
`saveDailyPriceToDatabase` (which swallows write errors), and return it.
The provider function `quoteApi` stands for the axios call, `now` for the
database clock used by the `date` column default. -/
def getDailyPrices (quoteApi : String → Option YahooMeta) (s : RunState)
    (now : Nat) (symbol : String) : RunState × Except String PriceData :=
  let s1 := recordFetch s symbol
  match quoteApi symbol with
  | none => (s1, .error ("Fallo al obtener precio diario para " ++ symbol))
  | some meta =>
    let priceData := mkPriceData symbol meta
    ({ s1 with db := saveDailyPriceToDatabase s1.db now priceData },
      .ok priceData)

/-- `PriceService.getHistoricalPrices`: look up the range configuration,
fetch the chart (the provider stands for the axios call with the range and
interval query parameters), fail with the generic rethrown message when the
result set is empty, otherwise normalize, store, and return the points. -/
def getHistoricalPrices (chartApi : String → Option YahooChartResult)
    (s : RunState) (symbol : String) (rangeKey : String) :
    RunState × Except String (List HistoricalPoint) :=
  let _config := getDateRangeConfig rangeKey
  let s1 := recordFetch s symbol
  match chartApi symbol with
  | none =>
    (s1, .error ("Fallo al obtener precios históricos para " ++ symbol))
  | some result =>
    let historicalData := normalizeHistorical result
    ({ s1 with db := saveHistoricalPricesToDatabase s1.db symbol historicalData },
      .ok historicalData)

/-- The status tag of a `BulkLoadResult`. -/
inductive BatchStatus where
  | success
  | failed
deriving Repr, DecidableEq

/-- The `BulkLoadResult` interface of `PriceService`. -/
structure BulkLoadResult where
  symbol : String
  records : Option Nat
  status : BatchStatus
  error : Option String
deriving Repr, DecidableEq

/-- One iteration of the per-symbol loop of `loadBulkHistoricalData`: on
success push a `success` outcome and pause 1000 ms (the pause sits inside the
`try`, after the push); on failure push a `failed` outcome with the error
message and continue with no pause. -/
def bulkStep (chartApi : String → Option YahooChartResult) (s : RunState)
    (symbol range : String) : RunState × BulkLoadResult :=
  match getHistoricalPrices chartApi s symbol range with
  | (s1, .ok historicalData) =>
    (sleep s1 1000, ⟨symbol, some historicalData.length, .success, none⟩)
  | (s1, .error msg) =>
    (s1, ⟨symbol, none, .failed, some msg⟩)

/-- `PriceService.loadBulkHistoricalData`: sequential per-symbol loop,
accumulating one outcome per symbol in input order; per-symbol failures are
caught inside the loop, so nothing in the loop throws past the caller. -/
def loadBulkHistoricalData (chartApi : String → Option YahooChartResult)
    (range : String) : RunState → List String → RunState × List BulkLoadResult
  | s, [] => (s, [])
  | s, symbol :: rest =>
    let (s1, r) := bulkStep chartApi s symbol range
    let (s2, rs) := loadBulkHistoricalData chartApi range s1 rest
    (s2, r :: rs)

/-- The per-symbol loop of `SchedulerService.executeDailyClose`: fetch the
daily price (errors caught and counted), then pause 1000 ms after the
try/catch, so the pause runs whether the symbol succeeded or failed. -/
def dailyCloseLoop (quoteApi : String → Option YahooMeta) (now : Nat) :
    RunState → List String → RunState
  | s, [] => s
  | s, symbol :: rest =>
    let (s1, _) := getDailyPrices quoteApi s now symbol
    dailyCloseLoop quoteApi now (sleep s1 1000) rest

/-- `SchedulerService.executeDailyClose`: read every symbol currently in the
Asset table, return early when there are none, otherwise run the paced
per-symbol loop. -/
def executeDailyClose (quoteApi : String → Option YahooMeta) (s : RunState)
    (now : Nat) : RunState :=
  let symbols := s.db.assets.map (·.symbol)
  if symbols.length == 0 then s
  else dailyCloseLoop quoteApi now s symbols

/-- The two cron jobs registered by `SchedulerService.start`. -/
inductive CronJob where
  | marketClose
  | healthCheck
deriving Repr, DecidableEq

/-- The scheduler's process-wide state: the running flag and the cron jobs
registered so far (node-cron keeps every scheduled job alive; the service
retains no handles to them). -/
structure SchedulerState where
  isRunning : Bool
  jobs : List CronJob
deriving Repr, DecidableEq

/-- `SchedulerService.start`: a no-op while the running flag is set;
otherwise register the market-close job and the health-check job and set the
flag. -/
def SchedulerState.start (st : SchedulerState) : SchedulerState :=
  if st.isRunning then st
  else { isRunning := true, jobs := st.jobs ++ [.marketClose, .healthCheck] }

/-- `SchedulerService.stop`: clears the running flag only; no job handle is
retained, so no registered cron job is cancelled. -/
def SchedulerState.stop (st : SchedulerState) : SchedulerState :=
  { st with isRunning := false }

/-- A market-close cron tick: every registered market-close job fires its
callback (which runs `executeDailyClose`); health-check jobs do not react to
this tick. -/
def marketCloseTick (quoteApi : String → Option YahooMeta)
    (st : SchedulerState) (s : RunState) (now : Nat) : RunState :=
  st.jobs.foldl
    (fun r j =>
      match j with
      | .marketClose => executeDailyClose quoteApi r now
      | .healthCheck => r)
    s

/-- The (asset, date) uniqueness invariant on the price table: no two rows
share the same (assetId, date) pair. -/
def uniqKeys (db : DB) : Prop :=
  db.prices.Pairwise (fun p q => ¬ (p.assetId = q.assetId ∧ p.date = q.date))

/-! ## Basic facts about the database primitives -/

lemma ensureAssetExists_of_found {db : DB} {sym : String} {a : Asset}
    (h : db.assets.find? (fun x => x.symbol == sym) = some a) :
    ensureAssetExists db sym = (db, a) := by
  simp [ensureAssetExists, assetUpsert, h]

lemma ensureAssetExists_find (db : DB) (sym : String) :
    ((ensureAssetExists db sym).1).assets.find? (fun x => x.symbol == sym)
      = some (ensureAssetExists db sym).2 := by
  unfold ensureAssetExists assetUpsert
  cases hf : db.assets.find? (fun x => x.symbol == sym) with
  | some a => simp [hf]
  | none => simp [hf, List.find?_append, List.find?]

lemma ensureAssetExists_stable {db db' : DB} {sym : String}
    (h : db'.assets = ((ensureAssetExists db sym).1).assets) :
    ensureAssetExists db' sym = (db', (ensureAssetExists db sym).2) := by
  apply ensureAssetExists_of_found
  rw [h]
  exact ensureAssetExists_find db sym

lemma ensureAssetExists_prices (db : DB) (sym : String) :
    ((ensureAssetExists db sym).1).prices = db.prices := by
  unfold ensureAssetExists assetUpsert
  cases hf : db.assets.find? (fun x => x.symbol == sym) <;> simp [hf]

lemma priceCreateMany_cons (db : DB) (r : PriceRow) (rs : List PriceRow) :
    priceCreateMany db (r :: rs) =
      priceCreateMany
        (if hasKey db r.assetId r.date then db
         else { db with prices := db.prices ++ [r] }) rs := rfl

lemma priceCreateMany_assets (rs : List PriceRow) :
    ∀ db : DB, (priceCreateMany db rs).assets = db.assets := by
  induction rs with
  | nil => intro db; rfl
  | cons r rs ih =>
    intro db
    rw [priceCreateMany_cons, ih]
    split <;> rfl

lemma hasKey_append (db : DB) (r : PriceRow) (a d : Nat) :
    hasKey { db with prices := db.prices ++ [r] } a d =
      (hasKey db a d || (r.assetId == a && r.date == d)) := by
  simp [hasKey, List.any_append]

lemma hasKey_self (db : DB) (r : PriceRow) :
    hasKey { db with prices := db.prices ++ [r] } r.assetId r.date = true := by
  simp [hasKey_append]

lemma hasKey_createMany_mono (rs : List PriceRow) :
    ∀ (db : DB) (a d : Nat), hasKey db a d = true →
      hasKey (priceCreateMany db rs) a d = true := by
  induction rs with
  | nil => intro db a d h; exact h
  | cons r rs ih =>
    intro db a d h
    rw [priceCreateMany_cons]
    apply ih
    split
    · exact h
    · simp [hasKey_append, h]

lemma hasKey_createMany_mem (rs : List PriceRow) :
    ∀ (db : DB) (r : PriceRow), r ∈ rs →
      hasKey (priceCreateMany db rs) r.assetId r.date = true := by
  induction rs with
  | nil => intro db r h; cases h
  | cons r0 rs ih =>
    intro db r h
    rw [priceCreateMany_cons]
    rcases List.mem_cons.mp h with rfl | hmem
    · apply hasKey_createMany_mono
      split
      · assumption
      · exact hasKey_self db r
    · exact ih _ r hmem

lemma priceCreateMany_noop (rs : List PriceRow) :
    ∀ db : DB, (∀ r ∈ rs, hasKey db r.assetId r.date = true) →
      priceCreateMany db rs = db := by
  induction rs with
  | nil => intro db _; rfl
  | cons r rs ih =>
    intro db h
    rw [priceCreateMany_cons]
    have hr : hasKey db r.assetId r.date = true := h r (List.mem_cons_self _ _)
    rw [if_pos hr]
    exact ih db (fun r2 hr2 => h r2 (List.mem_cons_of_mem _ hr2))

lemma uniqKeys_of_prices_eq {db db' : DB} (h : db'.prices = db.prices)
    (hu : uniqKeys db) : uniqKeys db' := by
  unfold uniqKeys at *
  rw [h]
  exact hu

lemma uniqKeys_append {db : DB} {r : PriceRow} (h : uniqKeys db)
    (hk : hasKey db r.assetId r.date = false) :
    uniqKeys { db with prices := db.prices ++ [r] } := by
  unfold uniqKeys at *
  rw [List.pairwise_append]
  refine ⟨h, List.pairwise_singleton _ _, ?_⟩
  intro p hp q hq
  simp only [List.mem_singleton] at hq
  subst hq
  simp only [hasKey, List.any_eq_false, Bool.and_eq_true, beq_iff_eq,
    not_and] at hk
  intro hand
  exact hk p hp hand.1 hand.2

lemma uniqKeys_createMany (rs : List PriceRow) :
    ∀ db : DB, uniqKeys db → uniqKeys (priceCreateMany db rs) := by
  induction rs with
  | nil => intro db h; exact h
  | cons r rs ih =>
    intro db h
    rw [priceCreateMany_cons]
    apply ih
    split
    · exact h
    · next hk => exact uniqKeys_append h (by simpa using hk)

/-! ## Unfolding lemmas for the service layer -/

lemma saveDaily_eq (db : DB) (now : Nat) (pd : PriceData) :
    saveDailyPriceToDatabase db now pd =
      (if hasKey ((ensureAssetExists db pd.symbol).1)
          ((ensureAssetExists db pd.symbol).2).id now
       then (ensureAssetExists db pd.symbol).1
       else { (ensureAssetExists db pd.symbol).1 with
                prices := ((ensureAssetExists db pd.symbol).1).prices ++
                  [⟨((ensureAssetExists db pd.symbol).2).id, now,
                    .num pd.regularMarketPrice, .num pd.regularMarketDayHigh,
                    .num pd.regularMarketDayLow, .num pd.regularMarketPrice,
                    .num pd.regularMarketVolume⟩] }) := by
  by_cases hk : hasKey ((ensureAssetExists db pd.symbol).1)
      ((ensureAssetExists db pd.symbol).2).id now = true
  · simp only [saveDailyPriceToDatabase, priceCreate, if_pos hk]
  · simp only [saveDailyPriceToDatabase, priceCreate, if_neg hk]

lemma saveHist_eq (db : DB) (sym : String) (hist : List HistoricalPoint) :
    saveHistoricalPricesToDatabase db sym hist =
      (if hist.length == 0 then (ensureAssetExists db sym).1
       else priceCreateMany ((ensureAssetExists db sym).1)
         (hist.map fun d => ⟨((ensureAssetExists db sym).2).id, d.date,
           d.«open», d.high, d.low, d.close, d.volume⟩)) := rfl

lemma saveDaily_assets (db : DB) (now : Nat) (pd : PriceData) :
    (saveDailyPriceToDatabase db now pd).assets =
      ((ensureAssetExists db pd.symbol).1).assets := by
  rw [saveDaily_eq]
  split <;> rfl

lemma saveHist_assets (db : DB) (sym : String) (hist : List HistoricalPoint) :
    (saveHistoricalPricesToDatabase db sym hist).assets =
      ((ensureAssetExists db sym).1).assets := by
  rw [saveHist_eq]
  split
  · rfl
  · rw [priceCreateMany_assets]

lemma getDailyPrices_none {quoteApi : String → Option YahooMeta} {s : RunState}
    {now : Nat} {symbol : String} (h : quoteApi symbol = none) :
    getDailyPrices quoteApi s now symbol =
      (⟨s.db, s.clock, s.fetchLog ++ [(symbol, s.clock)]⟩,
       .error ("Fallo al obtener precio diario para " ++ symbol)) := by
  simp [getDailyPrices, h, recordFetch]

lemma getDailyPrices_some {quoteApi : String → Option YahooMeta} {s : RunState}
    {now : Nat} {symbol : String} {meta : YahooMeta}
    (h : quoteApi symbol = some meta) :
    getDailyPrices quoteApi s now symbol =
      (⟨saveDailyPriceToDatabase s.db now (mkPriceData symbol meta), s.clock,
        s.fetchLog ++ [(symbol, s.clock)]⟩,
       .ok (mkPriceData symbol meta)) := by
  simp [getDailyPrices, h, recordFetch]

lemma getHistoricalPrices_none {chartApi : String → Option YahooChartResult}
    {s : RunState} {symbol range : String} (h : chartApi symbol = none) :
    getHistoricalPrices chartApi s symbol range =
      (⟨s.db, s.clock, s.fetchLog ++ [(symbol, s.clock)]⟩,
       .error ("Fallo al obtener precios históricos para " ++ symbol)) := by
  simp [getHistoricalPrices, h, recordFetch]

lemma getHistoricalPrices_some {chartApi : String → Option YahooChartResult}
    {s : RunState} {symbol range : String} {res : YahooChartResult}
    (h : chartApi symbol = some res) :
    getHistoricalPrices chartApi s symbol range =
      (⟨saveHistoricalPricesToDatabase s.db symbol (normalizeHistorical res),
        s.clock, s.fetchLog ++ [(symbol, s.clock)]⟩,
       .ok (normalizeHistorical res)) := by
  simp [getHistoricalPrices, h, recordFetch]

lemma bulkStep_none {chartApi : String → Option YahooChartResult}
    {s : RunState} {symbol range : String} (h : chartApi symbol = none) :
    bulkStep chartApi s symbol range =
      (⟨s.db, s.clock, s.fetchLog ++ [(symbol, s.clock)]⟩,
       ⟨symbol, none, .failed,
        some ("Fallo al obtener precios históricos para " ++ symbol)⟩) := by
  unfold bulkStep
  rw [getHistoricalPrices_none h]

lemma bulkStep_some {chartApi : String → Option YahooChartResult}
    {s : RunState} {symbol range : String} {res : YahooChartResult}
    (h : chartApi symbol = some res) :
    bulkStep chartApi s symbol range =
      (⟨saveHistoricalPricesToDatabase s.db symbol (normalizeHistorical res),
        s.clock + 1000, s.fetchLog ++ [(symbol, s.clock)]⟩,
       ⟨symbol, some (normalizeHistorical res).length, .success, none⟩) := by
  unfold bulkStep
  rw [getHistoricalPrices_some h]
  rfl

/-! ## Concrete stub inputs used by witnesses and counterexamples -/

/-- A quote snapshot with price 150.25 (scaled to 15025), day-high 151.00 and
day-low 149.00. -/
def stubMeta : YahooMeta := ⟨"USD", "AAPL", 15025, 15100, 14900, 1000, 14950, 170⟩

/-- A run over an empty database with the clock at zero. -/
def emptyRun : RunState := ⟨⟨[], [], 0⟩, 0, []⟩

/-- A two-point chart series whose second point has a null open. -/
def stubChart : YahooChartResult :=
  ⟨[10, 20], ⟨[.num 1, .null], [.num 2, .num 2], [.num 1, .num 1],
    [.num 2, .num 2], [.num 5, .num 5]⟩⟩

/-- A chart provider that knows only the symbol AAPL. -/
def stubChartApi : String → Option YahooChartResult :=
  fun sym => if sym == "AAPL" then some stubChart else none

/-! ## C6 -/

/-- C6: asset registration is an idempotent get-or-create keyed on the
symbol: repeating it returns the same asset and leaves the store unchanged,
and when no asset with the symbol exists it creates exactly one, with name
equal to the symbol and type STOCK. -/
theorem C6_ensureAsset_get_or_create (db : DB) (sym : String) :
    ensureAssetExists ((ensureAssetExists db sym).1) sym = ensureAssetExists db sym ∧
    (db.assets.countP (fun a => a.symbol == sym) = 0 →
      ((ensureAssetExists db sym).1).assets.countP (fun a => a.symbol == sym) = 1 ∧
      (ensureAssetExists db sym).2.symbol = sym ∧
      (ensureAssetExists db sym).2.name = sym ∧
      (ensureAssetExists db sym).2.type = "STOCK") := by
  constructor
  · rw [ensureAssetExists_stable rfl]
  · intro h
    have hnone : db.assets.find? (fun x => x.symbol == sym) = none := by
      rw [List.find?_eq_none]
      intro x hx
      have hp := List.countP_eq_zero.mp h x hx
      simpa using hp
    unfold ensureAssetExists assetUpsert
    rw [hnone]
    refine ⟨?_, rfl, rfl, rfl⟩
    simp [List.countP_append, h]

/-- Closed instance of C6 on an empty database. -/
theorem C6_witness :
    ensureAssetExists ((ensureAssetExists ⟨[], [], 0⟩ "AAPL").1) "AAPL"
        = ensureAssetExists ⟨[], [], 0⟩ "AAPL" ∧
    ((⟨[], [], 0⟩ : DB).assets.countP (fun a => a.symbol == "AAPL") = 0 ∧
      ((ensureAssetExists ⟨[], [], 0⟩ "AAPL").1).assets.countP
          (fun a => a.symbol == "AAPL") = 1 ∧
      (ensureAssetExists ⟨[], [], 0⟩ "AAPL").2.symbol = "AAPL" ∧
      (ensureAssetExists ⟨[], [], 0⟩ "AAPL").2.name = "AAPL" ∧
      (ensureAssetExists ⟨[], [], 0⟩ "AAPL").2.type = "STOCK") := by
  have h := C6_ensureAsset_get_or_create ⟨[], [], 0⟩ "AAPL"
  exact ⟨h.1, by decide, h.2 (by decide)⟩

/-! ## C10 -/

/-- C10: `stop()` clears only the running flag and cancels no registered cron
job, so `start(); stop(); start()` registers a second market-close job and a
second liveness job, a market-close tick then runs the daily close twice, and
the `start()` guard only protects a scheduler that is still running. -/
theorem C10_stop_does_not_cancel_jobs (st : SchedulerState)
    (quoteApi : String → Option YahooMeta) (s : RunState) (now : Nat) :
    (st.stop).jobs = st.jobs ∧
    (st.isRunning = true → st.start = st) ∧
    ((SchedulerState.stop (SchedulerState.start ⟨false, []⟩)).start).jobs
      = [.marketClose, .healthCheck, .marketClose, .healthCheck] ∧
    marketCloseTick quoteApi
        ((SchedulerState.stop (SchedulerState.start ⟨false, []⟩)).start) s now
      = executeDailyClose quoteApi (executeDailyClose quoteApi s now) now := by
  refine ⟨rfl, ?_, rfl, rfl⟩
  intro h
  simp [SchedulerState.start, h]

/-- Closed instance of C10. -/
theorem C10_witness :
    ((⟨true, [CronJob.marketClose]⟩ : SchedulerState).stop).jobs
        = [CronJob.marketClose] ∧
    (⟨true, [CronJob.marketClose]⟩ : SchedulerState).start
        = ⟨true, [CronJob.marketClose]⟩ ∧
    ((SchedulerState.stop (SchedulerState.start ⟨false, []⟩)).start).jobs
        = [.marketClose, .healthCheck, .marketClose, .healthCheck] ∧
    marketCloseTick (fun _ => none)
        ((SchedulerState.stop (SchedulerState.start ⟨false, []⟩)).start) emptyRun 0
      = executeDailyClose (fun _ => none)
          (executeDailyClose (fun _ => none) emptyRun 0) 0 := by
  have h := C10_stop_does_not_cancel_jobs ⟨true, [CronJob.marketClose]⟩
    (fun _ => none) emptyRun 0
  exact ⟨h.1, h.2.1 rfl, h.2.2.1, h.2.2.2⟩

/-! ## C3 -/

lemma bulkStep_symbol (chartApi : String → Option YahooChartResult)
    (s : RunState) (symbol range : String) :
    (bulkStep chartApi s symbol range).2.symbol = symbol := by
  cases h : chartApi symbol with
  | none => rw [bulkStep_none h]
  | some res => rw [bulkStep_some h]

lemma loadBulk_map_symbol (chartApi : String → Option YahooChartResult)
    (range : String) : ∀ (symbols : List String) (s : RunState),
    ((loadBulkHistoricalData chartApi range s symbols).2).map (·.symbol) = symbols := by
  intro symbols
  induction symbols with
  | nil => intro s; rfl
  | cons sym rest ih =>
    intro s
    rcases hb : bulkStep chartApi s sym range with ⟨s1, r⟩
    have hr : r.symbol = sym := by
      have hsy := bulkStep_symbol chartApi s sym range
      rw [hb] at hsy
      exact hsy
    rcases hl : loadBulkHistoricalData chartApi range s1 rest with ⟨s2, rs⟩
    have hmap : rs.map (·.symbol) = rest := by
      have hm := ih s1
      rw [hl] at hm
      exact hm
    simp only [loadBulkHistoricalData, hb, hl, List.map_cons, hr, hmap]

/-- C3: for every non-empty symbol list, the bulk historical load returns one
outcome per input symbol, in input order, each tagged success or failed; no
single-symbol failure stops the loop or escapes the caller (the loop is a
total function into outcome lists). -/
theorem C3_one_outcome_per_symbol (chartApi : String → Option YahooChartResult)
    (range : String) (s : RunState) (symbols : List String) (h : symbols ≠ []) :
    ((loadBulkHistoricalData chartApi range s symbols).2).map (·.symbol) = symbols ∧
    ∀ r ∈ (loadBulkHistoricalData chartApi range s symbols).2,
      r.status = BatchStatus.success ∨ r.status = BatchStatus.failed := by
  refine ⟨loadBulk_map_symbol chartApi range symbols s, ?_⟩
  intro r _
  cases hstat : r.status with
  | success => exact Or.inl rfl
  | failed => exact Or.inr rfl

/-- Closed instance of C3: AAPL succeeds, ZZZZ fails, both outcomes present
in order. -/
theorem C3_witness :
    ((loadBulkHistoricalData stubChartApi "5y" emptyRun ["AAPL", "ZZZZ"]).2).map
        (·.symbol) = ["AAPL", "ZZZZ"] ∧
    ∀ r ∈ (loadBulkHistoricalData stubChartApi "5y" emptyRun ["AAPL", "ZZZZ"]).2,
      r.status = BatchStatus.success ∨ r.status = BatchStatus.failed :=
  C3_one_outcome_per_symbol stubChartApi "5y" emptyRun ["AAPL", "ZZZZ"] (by decide)

/-! ## C2 -/

/-- C2 counterexample: with a snapshot whose `regularMarketPrice` is 150.25
(scaled: 15025) but whose day-high is 151.00 and day-low 149.00, the stored
daily row has `high = 15100` and `low = 14900`, so the claim that open, high,
low and close are all equal to `regularMarketPrice` is false. -/
theorem C2_counterexample :
    (saveDailyPriceToDatabase ⟨[], [], 0⟩ 5 (mkPriceData "AAPL" stubMeta)).prices =
      [⟨0, 5, .num 15025, .num 15100, .num 14900, .num 15025, .num 1000⟩] ∧
    ¬ ∀ r ∈ (saveDailyPriceToDatabase ⟨[], [], 0⟩ 5 (mkPriceData "AAPL" stubMeta)).prices,
        r.«open» = JSVal.num 15025 ∧ r.high = JSVal.num 15025 ∧
        r.low = JSVal.num 15025 ∧ r.close = JSVal.num 15025 := by
  constructor
  · rfl
  · decide

/-- C2 amended: a successful daily save appends exactly one row whose open
and close equal the snapshot's `regularMarketPrice` and whose high and low
equal the snapshot's `regularMarketDayHigh` and `regularMarketDayLow`. -/
theorem C2_daily_row_fields (db : DB) (now : Nat) (pd : PriceData)
    (h : hasKey ((ensureAssetExists db pd.symbol).1)
        ((ensureAssetExists db pd.symbol).2).id now = false) :
    (saveDailyPriceToDatabase db now pd).prices =
      ((ensureAssetExists db pd.symbol).1).prices ++
        [⟨((ensureAssetExists db pd.symbol).2).id, now,
          .num pd.regularMarketPrice, .num pd.regularMarketDayHigh,
          .num pd.regularMarketDayLow, .num pd.regularMarketPrice,
          .num pd.regularMarketVolume⟩] := by
  rw [saveDaily_eq, if_neg (by simp [h])]

/-- Closed instance of the amended C2. -/
theorem C2_witness :
    hasKey ((ensureAssetExists ⟨[], [], 0⟩ (mkPriceData "AAPL" stubMeta).symbol).1)
        ((ensureAssetExists ⟨[], [], 0⟩ (mkPriceData "AAPL" stubMeta).symbol).2).id 5
      = false ∧
    (saveDailyPriceToDatabase ⟨[], [], 0⟩ 5 (mkPriceData "AAPL" stubMeta)).prices =
      ((ensureAssetExists ⟨[], [], 0⟩ (mkPriceData "AAPL" stubMeta).symbol).1).prices ++
        [⟨((ensureAssetExists ⟨[], [], 0⟩ (mkPriceData "AAPL" stubMeta).symbol).2).id, 5,
          .num (mkPriceData "AAPL" stubMeta).regularMarketPrice,
          .num (mkPriceData "AAPL" stubMeta).regularMarketDayHigh,
          .num (mkPriceData "AAPL" stubMeta).regularMarketDayLow,
          .num (mkPriceData "AAPL" stubMeta).regularMarketPrice,
          .num (mkPriceData "AAPL" stubMeta).regularMarketVolume⟩] :=
  ⟨by decide, C2_daily_row_fields ⟨[], [], 0⟩ 5 (mkPriceData "AAPL" stubMeta) (by decide)⟩

/-! ## C8 -/

/-- C8 amended: for a provider returning an empty result set, the bulk
outcome for the symbol is `failed` carrying the rethrown fetch-failure
message, and the database is completely untouched: no price rows are written
and also no Asset is registered, because registration happens inside the
storage step, which is reached only after a successful fetch. -/
theorem C8_empty_result_failed_no_asset
    (chartApi : String → Option YahooChartResult) (s : RunState)
    (symbol range : String) (h : chartApi symbol = none) :
    (bulkStep chartApi s symbol range).2 =
      ⟨symbol, none, .failed,
       some ("Fallo al obtener precios históricos para " ++ symbol)⟩ ∧
    (bulkStep chartApi s symbol range).1.db = s.db := by
  rw [bulkStep_none h]
  exact ⟨rfl, rfl⟩

/-- Closed instance of the amended C8. -/
theorem C8_witness :
    (bulkStep (fun _ => none) emptyRun "ZZZZ" "5y").2 =
      ⟨"ZZZZ", none, .failed,
       some ("Fallo al obtener precios históricos para " ++ "ZZZZ")⟩ ∧
    (bulkStep (fun _ => none) emptyRun "ZZZZ" "5y").1.db = emptyRun.db :=
  C8_empty_result_failed_no_asset (fun _ => none) emptyRun "ZZZZ" "5y" rfl

/-- C8 counterexample: a bulk historical load of `ZZZZ` against a provider
with no data leaves the Asset table empty, contradicting "the Asset Registry
still contains an Asset for that symbol because registration happens before
the fetch". -/
theorem C8_counterexample :
    (loadBulkHistoricalData (fun _ => none) "5y" emptyRun ["ZZZZ"]).1.db.assets = [] ∧
    (loadBulkHistoricalData (fun _ => none) "5y" emptyRun ["ZZZZ"]).2 =
      [⟨"ZZZZ", none, .failed,
        some "Fallo al obtener precios históricos para ZZZZ"⟩] := by
  exact ⟨rfl, rfl⟩

/-! ## C9 -/

/-- C9 counterexample: ingesting `aapl` through the daily path and then
through the historical path creates two distinct Assets for the one ticker —
`AAPL` (daily path uppercases) and `aapl` (historical path registers the
symbol as supplied, not uppercase). -/
theorem C9_counterexample :
    ((getHistoricalPrices (fun _ => some ⟨[], ⟨[], [], [], [], []⟩⟩)
        ((getDailyPrices (fun _ => some stubMeta) emptyRun 5 "aapl").1)
        "aapl" "1mo").1).db.assets.map (·.symbol) = ["AAPL", "aapl"] ∧
    ¬ "aapl" = toUpperCase "aapl" := by
  constructor
  · rfl
  · decide

/-- C9 amended: only the daily path uppercases before registration — the
historical storage path registers the symbol exactly as supplied, so
mixed-case callers can end up with two distinct Assets for one ticker. -/
theorem C9_registration_casing (db : DB) (sym : String)
    (hist : List HistoricalPoint) (quoteApi : String → Option YahooMeta)
    (s : RunState) (now : Nat) (meta : YahooMeta)
    (h : quoteApi sym = some meta) :
    (saveHistoricalPricesToDatabase db sym hist).assets =
      ((ensureAssetExists db sym).1).assets ∧
    ((getDailyPrices quoteApi s now sym).1).db.assets =
      ((ensureAssetExists s.db (toUpperCase sym)).1).assets := by
  refine ⟨saveHist_assets db sym hist, ?_⟩
  rw [getDailyPrices_some h]
  rw [saveDaily_assets]
  rfl

/-- Closed instance of the amended C9. -/
theorem C9_witness :
    (saveHistoricalPricesToDatabase ⟨[], [], 0⟩ "aapl" []).assets =
      ((ensureAssetExists ⟨[], [], 0⟩ "aapl").1).assets ∧
    ((getDailyPrices (fun _ => some stubMeta) emptyRun 5 "aapl").1).db.assets =
      ((ensureAssetExists emptyRun.db (toUpperCase "aapl")).1).assets :=
  C9_registration_casing ⟨[], [], 0⟩ "aapl" [] (fun _ => some stubMeta)
    emptyRun 5 stubMeta rfl

/-! ## C5 -/

/-- C5: when the fetch succeeds, `getDailyPrices` always returns the fetched
snapshot — the save layer catches and logs write failures — and in the
write-throws case (the (assetId, date) key already exists, so `price.create`
raises) no row is persisted yet the call still reports the price data, so a
top-level success does not guarantee a persisted row. -/
theorem C5_write_failure_swallowed (quoteApi : String → Option YahooMeta)
    (s : RunState) (now : Nat) (sym : String) (meta : YahooMeta)
    (h : quoteApi sym = some meta) :
    (getDailyPrices quoteApi s now sym).2 = .ok (mkPriceData sym meta) ∧
    (hasKey ((ensureAssetExists s.db (toUpperCase sym)).1)
        ((ensureAssetExists s.db (toUpperCase sym)).2).id now = true →
      ((getDailyPrices quoteApi s now sym).1).db.prices = s.db.prices) := by
  constructor
  · rw [getDailyPrices_some h]
  · intro hk
    rw [getDailyPrices_some h]
    show (saveDailyPriceToDatabase s.db now (mkPriceData sym meta)).prices
      = s.db.prices
    rw [saveDaily_eq]
    simp only [mkPriceData]
    rw [if_pos hk]
    exact ensureAssetExists_prices s.db _

/-- Closed instance of C5: the row for (asset 0, date 5) already exists, the
write throws, the fetch still returns the snapshot and the table is
unchanged. -/
theorem C5_witness :
    (getDailyPrices (fun _ => some stubMeta)
        ⟨⟨[⟨0, "AAPL", "AAPL", "STOCK"⟩],
          [⟨0, 5, .num 1, .num 1, .num 1, .num 1, .num 1⟩], 1⟩, 0, []⟩
        5 "AAPL").2 = .ok (mkPriceData "AAPL" stubMeta) ∧
    ((getDailyPrices (fun _ => some stubMeta)
        ⟨⟨[⟨0, "AAPL", "AAPL", "STOCK"⟩],
          [⟨0, 5, .num 1, .num 1, .num 1, .num 1, .num 1⟩], 1⟩, 0, []⟩
        5 "AAPL").1).db.prices =
      [⟨0, 5, .num 1, .num 1, .num 1, .num 1, .num 1⟩] := by
  have h := C5_write_failure_swallowed (fun _ => some stubMeta)
    ⟨⟨[⟨0, "AAPL", "AAPL", "STOCK"⟩],
      [⟨0, 5, .num 1, .num 1, .num 1, .num 1, .num 1⟩], 1⟩, 0, []⟩
    5 "AAPL" stubMeta rfl
  exact ⟨h.1, h.2 (by decide)⟩

/-! ## C4 -/

lemma zipQuotes_map_date (ts : List Nat) : ∀ (os hs ls cs vs : List JSVal),
    (zipQuotes ts os hs ls cs vs).map (·.date) = ts.map (· * 1000) := by
  induction ts with
  | nil => intro os hs ls cs vs; rfl
  | cons t ts ih =>
    intro os hs ls cs vs
    simp only [zipQuotes, List.map_cons]
    rw [ih]

lemma zipQuotes_filter_length (ts : List Nat) : ∀ (os hs ls cs vs : List JSVal),
    os.length = ts.length →
    ((zipQuotes ts os hs ls cs vs).filter
        (fun it => it.«open» != JSVal.null)).length
      = ts.length - os.count JSVal.null := by
  induction ts with
  | nil =>
    intro os hs ls cs vs h
    have hos : os = [] := List.length_eq_zero.mp h
    subst hos
    rfl
  | cons t ts ih =>
    intro os hs ls cs vs h
    cases os with
    | nil => simp at h
    | cons o os' =>
      have hlen : os'.length = ts.length := by simpa using h
      simp only [zipQuotes, List.headD_cons, List.tail_cons, List.filter_cons]
      by_cases ho : o = JSVal.null
      · subst ho
        simp only [bne_self_eq_false, Bool.false_eq_true, if_false]
        rw [ih os' hs.tail ls.tail cs.tail vs.tail hlen]
        rw [List.count_cons_self]
        simp only [List.length_cons]
        omega
      · have hb : (o != JSVal.null) = true := bne_iff_ne.mpr ho
        simp only [hb, if_true, List.length_cons]
        rw [ih os' hs.tail ls.tail cs.tail vs.tail hlen]
        rw [List.count_cons_of_ne (Ne.symm ho)]
        have hc : os'.count JSVal.null ≤ ts.length :=
          hlen ▸ List.count_le_length _ _
        omega

lemma normalize_sorted (ts : List Nat) (q : YahooQuote)
    (h : List.Sorted (· ≤ ·) ts) :
    List.Sorted (· ≤ ·) ((normalizeHistorical ⟨ts, q⟩).map (·.date)) := by
  have hz : List.Sorted (· ≤ ·)
      ((zipQuotes ts q.«open» q.high q.low q.close q.volume).map (·.date)) := by
    rw [zipQuotes_map_date]
    exact h.map _ (fun a b hab => Nat.mul_le_mul_right 1000 hab)
  exact hz.sublist ((List.filter_sublist _).map _)

/-- C4: for a fetched series of N timestamps whose parallel open array has K
null entries, the normalized result — built by positionally zipping the
timestamp array with the OHLCV arrays — is what the call returns, has exactly
N − K points, keeps ascending timestamp order, and is the record count in the
bulk outcome. -/
theorem C4_normalization (chartApi : String → Option YahooChartResult)
    (s : RunState) (sym range : String) (ts : List Nat) (q : YahooQuote)
    (h : chartApi sym = some ⟨ts, q⟩)
    (hlen : q.«open».length = ts.length)
    (hsort : List.Sorted (· ≤ ·) ts) :
    (getHistoricalPrices chartApi s sym range).2
        = .ok (normalizeHistorical ⟨ts, q⟩) ∧
    (normalizeHistorical ⟨ts, q⟩).length
        = ts.length - q.«open».count JSVal.null ∧
    List.Sorted (· ≤ ·) ((normalizeHistorical ⟨ts, q⟩).map (·.date)) ∧
    (bulkStep chartApi s sym range).2.records
        = some (ts.length - q.«open».count JSVal.null) := by
  have hn : (normalizeHistorical ⟨ts, q⟩).length
      = ts.length - q.«open».count JSVal.null := by
    show ((zipQuotes ts q.«open» q.high q.low q.close q.volume).filter
        (fun it => it.«open» != JSVal.null)).length = _
    exact zipQuotes_filter_length ts q.«open» q.high q.low q.close q.volume hlen
  refine ⟨?_, hn, normalize_sorted ts q hsort, ?_⟩
  · rw [getHistoricalPrices_some h]
  · rw [bulkStep_some h]
    simp [hn]

/-- Closed instance of C4: two raw points, one null open, one record kept. -/
theorem C4_witness :
    (getHistoricalPrices (fun _ => some stubChart) emptyRun "AAPL" "5y").2
        = .ok (normalizeHistorical ⟨[10, 20], stubChart.quote⟩) ∧
    (normalizeHistorical ⟨[10, 20], stubChart.quote⟩).length
        = [10, 20].length - stubChart.quote.«open».count JSVal.null ∧
    List.Sorted (· ≤ ·)
        ((normalizeHistorical ⟨[10, 20], stubChart.quote⟩).map (·.date)) ∧
    (bulkStep (fun _ => some stubChart) emptyRun "AAPL" "5y").2.records
        = some ([10, 20].length - stubChart.quote.«open».count JSVal.null) :=
  C4_normalization (fun _ => some stubChart) emptyRun "AAPL" "5y" [10, 20]
    stubChart.quote rfl (by decide) (by decide)

/-! ## C1 -/

instance uniqKeysDecidable (db : DB) : Decidable (uniqKeys db) :=
  inferInstanceAs (Decidable (List.Pairwise _ _))

lemma saveHist_idem (db : DB) (sym : String) (hist : List HistoricalPoint) :
    saveHistoricalPricesToDatabase (saveHistoricalPricesToDatabase db sym hist)
        sym hist
      = saveHistoricalPricesToDatabase db sym hist := by
  have hassets := saveHist_assets db sym hist
  have hstable := ensureAssetExists_stable hassets
  by_cases hlen : hist.length = 0
  · conv_lhs => rw [saveHist_eq]
    rw [if_pos (by simp [hlen])]
    rw [hstable]
  · conv_lhs => rw [saveHist_eq]
    rw [if_neg (by simp [hlen])]
    rw [hstable]
    apply priceCreateMany_noop
    intro r hr
    have hD1 : saveHistoricalPricesToDatabase db sym hist
        = priceCreateMany ((ensureAssetExists db sym).1)
            (hist.map fun d => ⟨((ensureAssetExists db sym).2).id, d.date,
              d.«open», d.high, d.low, d.close, d.volume⟩) := by
      rw [saveHist_eq, if_neg (by simp [hlen])]
    rw [hD1]
    exact hasKey_createMany_mem _ _ r hr

lemma saveDaily_idem (db : DB) (now : Nat) (pd : PriceData) :
    saveDailyPriceToDatabase (saveDailyPriceToDatabase db now pd) now pd
      = saveDailyPriceToDatabase db now pd := by
  have hassets := saveDaily_assets db now pd
  have hstable := ensureAssetExists_stable hassets
  have hk : hasKey (saveDailyPriceToDatabase db now pd)
      ((ensureAssetExists db pd.symbol).2).id now = true := by
    rw [saveDaily_eq]
    split
    · next hkk => exact hkk
    · exact hasKey_self _ _
  conv_lhs => rw [saveDaily_eq]
  rw [hstable]
  rw [if_pos hk]

lemma getHist_db_idem (chartApi : String → Option YahooChartResult)
    (s : RunState) (sym range : String) :
    ((getHistoricalPrices chartApi ((getHistoricalPrices chartApi s sym range).1)
        sym range).1).db
      = ((getHistoricalPrices chartApi s sym range).1).db := by
  cases h : chartApi sym with
  | none => simp only [getHistoricalPrices_none h]
  | some res =>
    simp only [getHistoricalPrices_some h]
    exact saveHist_idem _ _ _

/-- C1: the (asset, date) uniqueness invariant is preserved by both write
paths, and both are idempotent: re-running a historical save over the same
data changes nothing (`skipDuplicates` drops every row), repeating the daily
save for the same date changes nothing (the second `create` hits the unique
key, throws, and is swallowed — no overwrite), and re-running a whole
historical fetch-and-store leaves the database unchanged. -/
theorem C1_no_duplicate_rows (db : DB) (sym : String)
    (hist : List HistoricalPoint) (now : Nat) (pd : PriceData) :
    (uniqKeys db →
      uniqKeys (saveHistoricalPricesToDatabase db sym hist) ∧
      uniqKeys (saveDailyPriceToDatabase db now pd)) ∧
    saveHistoricalPricesToDatabase (saveHistoricalPricesToDatabase db sym hist)
        sym hist
      = saveHistoricalPricesToDatabase db sym hist ∧
    saveDailyPriceToDatabase (saveDailyPriceToDatabase db now pd) now pd
      = saveDailyPriceToDatabase db now pd ∧
    ∀ (chartApi : String → Option YahooChartResult) (s : RunState)
      (range : String),
      ((getHistoricalPrices chartApi
          ((getHistoricalPrices chartApi s sym range).1) sym range).1).db
        = ((getHistoricalPrices chartApi s sym range).1).db := by
  refine ⟨?_, saveHist_idem db sym hist, saveDaily_idem db now pd,
    fun chartApi s range => getHist_db_idem chartApi s sym range⟩
  intro hu
  constructor
  · rw [saveHist_eq]
    split
    · exact uniqKeys_of_prices_eq (ensureAssetExists_prices db sym) hu
    · exact uniqKeys_createMany _ _
        (uniqKeys_of_prices_eq (ensureAssetExists_prices db sym) hu)
  · rw [saveDaily_eq]
    split
    · exact uniqKeys_of_prices_eq (ensureAssetExists_prices db pd.symbol) hu
    · next hkk =>
      exact uniqKeys_append
        (uniqKeys_of_prices_eq (ensureAssetExists_prices db pd.symbol) hu)
        (by simpa using hkk)

/-- Closed instance of C1 on a concrete database, series and snapshot. -/
theorem C1_witness :
    uniqKeys (⟨[], [], 0⟩ : DB) ∧
    (uniqKeys (saveHistoricalPricesToDatabase ⟨[], [], 0⟩ "AAPL"
        [⟨10000, .num 1, .num 2, .num 1, .num 2, .num 5⟩]) ∧
      uniqKeys (saveDailyPriceToDatabase ⟨[], [], 0⟩ 5
        (mkPriceData "AAPL" stubMeta))) ∧
    saveHistoricalPricesToDatabase
        (saveHistoricalPricesToDatabase ⟨[], [], 0⟩ "AAPL"
          [⟨10000, .num 1, .num 2, .num 1, .num 2, .num 5⟩]) "AAPL"
        [⟨10000, .num 1, .num 2, .num 1, .num 2, .num 5⟩]
      = saveHistoricalPricesToDatabase ⟨[], [], 0⟩ "AAPL"
          [⟨10000, .num 1, .num 2, .num 1, .num 2, .num 5⟩] ∧
    saveDailyPriceToDatabase
        (saveDailyPriceToDatabase ⟨[], [], 0⟩ 5 (mkPriceData "AAPL" stubMeta)) 5
        (mkPriceData "AAPL" stubMeta)
      = saveDailyPriceToDatabase ⟨[], [], 0⟩ 5 (mkPriceData "AAPL" stubMeta) ∧
    ((getHistoricalPrices (fun _ => some stubChart)
        ((getHistoricalPrices (fun _ => some stubChart) emptyRun "AAPL" "5y").1)
        "AAPL" "5y").1).db
      = ((getHistoricalPrices (fun _ => some stubChart) emptyRun "AAPL" "5y").1).db := by
  have h := C1_no_duplicate_rows ⟨[], [], 0⟩ "AAPL"
    [⟨10000, .num 1, .num 2, .num 1, .num 2, .num 5⟩] 5
    (mkPriceData "AAPL" stubMeta)
  exact ⟨by decide, h.1 (by decide), h.2.1, h.2.2.1,
    h.2.2.2 (fun _ => some stubChart) emptyRun "5y"⟩

/-! ## C7 -/

lemma getDailyPrices_state (quoteApi : String → Option YahooMeta)
    (s : RunState) (now : Nat) (sym : String) :
    ((getDailyPrices quoteApi s now sym).1).fetchLog
        = s.fetchLog ++ [(sym, s.clock)] ∧
    ((getDailyPrices quoteApi s now sym).1).clock = s.clock := by
  cases h : quoteApi sym with
  | none => rw [getDailyPrices_none h]; exact ⟨rfl, rfl⟩
  | some meta => rw [getDailyPrices_some h]; exact ⟨rfl, rfl⟩

lemma dailyCloseLoop_chain (quoteApi : String → Option YahooMeta) (now : Nat) :
    ∀ (symbols : List String) (s : RunState),
      List.Chain' (fun a b => a.2 + 1000 ≤ b.2) s.fetchLog →
      (∀ p ∈ s.fetchLog.getLast?, p.2 + 1000 ≤ s.clock) →
      List.Chain' (fun a b => a.2 + 1000 ≤ b.2)
        ((dailyCloseLoop quoteApi now s symbols).fetchLog) := by
  intro symbols
  induction symbols with
  | nil => intro s h _; exact h
  | cons sym rest ih =>
    intro s h hl
    rcases hg : getDailyPrices quoteApi s now sym with ⟨s1, res⟩
    have hst := getDailyPrices_state quoteApi s now sym
    rw [hg] at hst
    simp only [dailyCloseLoop, hg]
    apply ih
    · show List.Chain' _ s1.fetchLog
      rw [hst.1]
      rw [List.chain'_append]
      refine ⟨h, List.chain'_singleton _, ?_⟩
      intro x hx y hy
      simp only [List.head?_cons, Option.mem_def, Option.some.injEq] at hy
      rw [← hy]
      exact hl x hx
    · intro p hp
      rw [show (sleep s1 1000).fetchLog = s1.fetchLog from rfl, hst.1,
        List.getLast?_concat] at hp
      simp only [Option.mem_def, Option.some.injEq] at hp
      rw [← hp]
      show s.clock + 1000 ≤ s1.clock + 1000
      rw [hst.2]

/-- C7 amended: the daily-close driver pauses 1000 ms after every symbol,
succeeded or failed, so consecutive fetches are at least 1000 ms apart; the
bulk historical loader pauses only after a successful symbol — after a failed
symbol the clock does not advance and the next fetch is issued with no
intervening delay. -/
theorem C7_pacing (quoteApi : String → Option YahooMeta)
    (chartApi : String → Option YahooChartResult) (s : RunState) (now : Nat)
    (sym range : String) :
    (s.fetchLog = [] →
      List.Chain' (fun a b => a.2 + 1000 ≤ b.2)
        ((executeDailyClose quoteApi s now).fetchLog)) ∧
    (∀ res, chartApi sym = some res →
      (bulkStep chartApi s sym range).1.clock = s.clock + 1000) ∧
    (chartApi sym = none →
      (bulkStep chartApi s sym range).1.clock = s.clock ∧
      (bulkStep chartApi s sym range).1.fetchLog
        = s.fetchLog ++ [(sym, s.clock)] ∧
      (bulkStep chartApi s sym range).2.status = BatchStatus.failed) := by
  refine ⟨?_, ?_, ?_⟩
  · intro hlog
    simp only [executeDailyClose]
    split
    · rw [hlog]; exact List.chain'_nil
    · apply dailyCloseLoop_chain
      · rw [hlog]; exact List.chain'_nil
      · rw [hlog]; intro p hp; simp at hp
  · intro res h
    rw [bulkStep_some h]
  · intro h
    rw [bulkStep_none h]
    exact ⟨rfl, rfl, rfl⟩

/-- A run whose database already knows two assets, for exercising the
daily-close driver. -/
def dualAssetRun : RunState :=
  ⟨⟨[⟨0, "AAPL", "AAPL", "STOCK"⟩, ⟨1, "MSFT", "MSFT", "STOCK"⟩], [], 2⟩, 0, []⟩

/-- Closed instance of the amended C7. -/
theorem C7_witness :
    List.Chain' (fun a b => a.2 + 1000 ≤ b.2)
      ((executeDailyClose (fun _ => some stubMeta) dualAssetRun 5).fetchLog) ∧
    (bulkStep (fun _ => some stubChart) emptyRun "AAPL" "5y").1.clock
        = emptyRun.clock + 1000 ∧
    ((bulkStep (fun _ => none) emptyRun "AAPL" "5y").1.clock = emptyRun.clock ∧
      (bulkStep (fun _ => none) emptyRun "AAPL" "5y").1.fetchLog
        = emptyRun.fetchLog ++ [("AAPL", emptyRun.clock)] ∧
      (bulkStep (fun _ => none) emptyRun "AAPL" "5y").2.status
        = BatchStatus.failed) :=
  ⟨(C7_pacing (fun _ => some stubMeta) (fun _ => some stubChart) dualAssetRun 5
      "AAPL" "5y").1 rfl,
   (C7_pacing (fun _ => some stubMeta) (fun _ => some stubChart) emptyRun 5
      "AAPL" "5y").2.1 stubChart rfl,
   (C7_pacing (fun _ => some stubMeta) (fun _ => none) emptyRun 5
      "AAPL" "5y").2.2 rfl⟩

/-- C7 counterexample: in a bulk load where the first symbol fails, the
second symbol is fetched at the same clock value — no pacing delay elapsed
between the two consecutive fetches. -/
theorem C7_counterexample :
    ((loadBulkHistoricalData (fun _ => none) "5y" emptyRun
        ["AAPL", "MSFT"]).1).fetchLog = [("AAPL", 0), ("MSFT", 0)] ∧
    ¬ List.Chain' (fun a b => a.2 + 1000 ≤ b.2) [("AAPL", 0), ("MSFT", 0)] := by
  refine ⟨rfl, fun hch => ?_⟩
  rw [List.chain'_cons] at hch
  have h1 := hch.1
  simp at h1
